import Mathlib

/-!
# Verification of the SmartSpeak gamification core

Shallow embedding of the gamification / progress-tracking engine of the
`ss14` repository (`src/database.py`, `src/app.py`): XP/level computation,
badge awarding, weekly challenges, the weekly leaderboard, conversation
context trimming, star scoring and security-question verification.

Python strings that undergo structural operations (strip / split / join /
lower) are modelled as `List Char`; opaque identifiers (user ids, mode
names, week keys, badge ids) stay `String`.  The MongoDB collections are
modelled as association lists of documents wrapped in `Option` (the
handles are `None` when the connection failed, mirroring the module-level
fallback in `database.py`).
-/

namespace SS14

/-! ## XP / level formula (`database.py`, `xp_threshold_for_level` /
`calculate_level_from_xp`) -/

/-- Embeds `xp_threshold_for_level` from `database.py`: total cumulative XP needed
to reach `level`.  The Python loop `for l in range(1, level): total += 25 * 2**(l-1)`
is the fold below (`List.range (level-1)` enumerates `l-1` for `l = 1..level-1`). -/
def xp_threshold_for_level (level : Nat) : Nat :=
  if level ≤ 1 then 0
  else (List.range (level - 1)).foldl (fun total l => total + 25 * 2 ^ l) 0

/-- The `while` loop of `calculate_level_from_xp`, with explicit fuel.
Each iteration does `if xp >= xp_threshold_for_level(level+1): level += 1` and
the loop exits on the first failing test. -/
def levelLoop (xp : Nat) : Nat → Nat → Nat
  | 0, level => level
  | fuel + 1, level =>
    if xp_threshold_for_level (level + 1) ≤ xp then levelLoop xp fuel (level + 1)
    else level

/-- Embeds `calculate_level_from_xp` from `database.py`.  The Python `while True`
loop terminates because thresholds grow geometrically; `xp + 1` units of
fuel are always sufficient (proved in `levelLoop_spec` / `calculate_level_eq`). -/
def calculate_level_from_xp (xp : Nat) : Nat :=
  levelLoop xp (xp + 1) 1

theorem range_foldl_pow (n : Nat) :
    (List.range n).foldl (fun total l => total + 25 * 2 ^ l) 0 = 25 * (2 ^ n - 1) := by
  induction n with
  | zero => simp
  | succ n ih =>
    rw [List.range_succ, List.foldl_append, ih]
    simp only [List.foldl_cons, List.foldl_nil]
    have h1 : 1 ≤ 2 ^ n := Nat.one_le_two_pow
    have h2 : 2 ^ (n + 1) = 2 ^ n + 2 ^ n := by rw [Nat.pow_succ]; omega
    omega

theorem xp_threshold_closed (level : Nat) :
    xp_threshold_for_level level = 25 * (2 ^ (level - 1) - 1) := by
  unfold xp_threshold_for_level
  by_cases h : level ≤ 1
  · interval_cases level <;> simp
  · rw [if_neg h, range_foldl_pow]

theorem xp_threshold_lt_succ {level : Nat} (h : 1 ≤ level) :
    xp_threshold_for_level level < xp_threshold_for_level (level + 1) := by
  rw [xp_threshold_closed, xp_threshold_closed]
  have hs : level + 1 - 1 = (level - 1) + 1 := by omega
  rw [hs, Nat.pow_succ]
  have h1 : 1 ≤ 2 ^ (level - 1) := Nat.one_le_two_pow
  omega

theorem xp_threshold_mono {l m : Nat} (h : l ≤ m) :
    xp_threshold_for_level l ≤ xp_threshold_for_level m := by
  rw [xp_threshold_closed, xp_threshold_closed]
  have h1 : 2 ^ (l - 1) ≤ 2 ^ (m - 1) := Nat.pow_le_pow_right (by omega) (by omega)
  omega

theorem levelLoop_spec (xp : Nat) :
    ∀ fuel level, 1 ≤ level →
      xp_threshold_for_level level ≤ xp →
      xp < xp_threshold_for_level (level + fuel + 1) →
      xp_threshold_for_level (levelLoop xp fuel level) ≤ xp ∧
      xp < xp_threshold_for_level (levelLoop xp fuel level + 1) ∧
      1 ≤ levelLoop xp fuel level := by
  intro fuel
  induction fuel with
  | zero =>
    intro level h1 hlo hhi
    simpa [levelLoop] using ⟨hlo, hhi, h1⟩
  | succ fuel ih =>
    intro level h1 hlo hhi
    unfold levelLoop
    by_cases hc : xp_threshold_for_level (level + 1) ≤ xp
    · rw [if_pos hc]
      exact ih (level + 1) (by omega) hc (by
        have : level + 1 + fuel + 1 = level + (fuel + 1) + 1 := by omega
        rw [this]; exact hhi)
    · rw [if_neg hc]
      exact ⟨hlo, by omega, h1⟩

theorem levelFromXP_unique {xp L M : Nat} (_hL1 : 1 ≤ L) (_hM1 : 1 ≤ M)
    (hL : xp_threshold_for_level L ≤ xp) (hL2 : xp < xp_threshold_for_level (L + 1))
    (hM : xp_threshold_for_level M ≤ xp) (hM2 : xp < xp_threshold_for_level (M + 1)) :
    L = M := by
  by_contra hne
  rcases Nat.lt_or_ge L M with h | h
  · have : xp_threshold_for_level (L + 1) ≤ xp_threshold_for_level M :=
      xp_threshold_mono (by omega)
    omega
  · have hML : M < L := by omega
    have : xp_threshold_for_level (M + 1) ≤ xp_threshold_for_level L :=
      xp_threshold_mono (by omega)
    omega

theorem xp_lt_threshold_big (xp : Nat) : xp < xp_threshold_for_level (xp + 3) := by
  rw [xp_threshold_closed]
  have h1 : xp + 2 < 2 ^ (xp + 2) := Nat.lt_two_pow (xp + 2)
  have h2 : xp + 3 - 1 = xp + 2 := by omega
  rw [h2]
  omega

theorem calculate_level_eq {xp L : Nat} (h1 : 1 ≤ L)
    (hlo : xp_threshold_for_level L ≤ xp) (hhi : xp < xp_threshold_for_level (L + 1)) :
    calculate_level_from_xp xp = L := by
  have hstart : xp_threshold_for_level 1 ≤ xp := by
    rw [xp_threshold_closed]; simp
  have hbig : xp < xp_threshold_for_level (1 + (xp + 1) + 1) := by
    have : 1 + (xp + 1) + 1 = xp + 3 := by omega
    rw [this]; exact xp_lt_threshold_big xp
  obtain ⟨h1', h2', h3'⟩ := levelLoop_spec xp (xp + 1) 1 (by omega) hstart hbig
  exact levelFromXP_unique h3' h1 h1' h2' hlo hhi

/-- C3: threshold/level round trip: `calculate_level_from_xp` inverts
`xp_threshold_for_level` at every level ≥ 1, one XP below a threshold
still lies in the previous level, and the concrete thresholds for levels
2–5 are 25, 75, 175, 375. -/
theorem C3_threshold_round_trip :
    (∀ level, 1 ≤ level →
      calculate_level_from_xp (xp_threshold_for_level level) = level) ∧
    (∀ level, 1 < level →
      calculate_level_from_xp (xp_threshold_for_level level - 1) = level - 1) ∧
    xp_threshold_for_level 2 = 25 ∧ xp_threshold_for_level 3 = 75 ∧
    xp_threshold_for_level 4 = 175 ∧ xp_threshold_for_level 5 = 375 := by
  refine ⟨?_, ?_, by decide, by decide, by decide, by decide⟩
  · intro level h
    exact calculate_level_eq h (Nat.le_refl _) (xp_threshold_lt_succ h)
  · intro level h
    have hpos : 0 < xp_threshold_for_level level := by
      rw [xp_threshold_closed]
      have h1 : 2 ≤ 2 ^ (level - 1) := by
        calc 2 = 2 ^ 1 := by norm_num
        _ ≤ 2 ^ (level - 1) := Nat.pow_le_pow_right (by omega) (by omega)
      omega
    have hlt : xp_threshold_for_level (level - 1) < xp_threshold_for_level level := by
      have hstep : xp_threshold_for_level (level - 1) <
          xp_threshold_for_level (level - 1 + 1) := xp_threshold_lt_succ (by omega)
      have he : level - 1 + 1 = level := by omega
      rwa [he] at hstep
    refine calculate_level_eq (by omega) (by omega) ?_
    have he : level - 1 + 1 = level := by omega
    rw [he]; omega

/-- Witness for C3 at a concrete level. -/
theorem C3_threshold_round_trip_witness :
    calculate_level_from_xp (xp_threshold_for_level 3) = 3 ∧
    calculate_level_from_xp (xp_threshold_for_level 3 - 1) = 2 := by
  refine ⟨C3_threshold_round_trip.1 3 (by omega), ?_⟩
  have h := C3_threshold_round_trip.2.1 3 (by omega)
  simpa using h

/-! ## Python string model

Python `str` values that undergo `strip` / `lower` / `split` / `join` are
modelled as `List Char`. -/

/-- A Python string, as a list of characters. -/
abbrev PyStr := List Char

/-- Python `str.strip()`: drop whitespace from both ends. -/
def pyStrip (s : PyStr) : PyStr :=
  ((s.dropWhile Char.isWhitespace).reverse.dropWhile Char.isWhitespace).reverse

/-- Python `str.lower()` (ASCII case folding suffices for this code base). -/
def pyLower (s : PyStr) : PyStr := s.map Char.toLower

/-- Python `str.upper()` (ASCII). -/
def pyUpper (s : PyStr) : PyStr := s.map Char.toUpper

/-- Worker for `pySplit`, accumulating the current piece in reverse. -/
def pySplitAux (sep : Char) : PyStr → PyStr → List PyStr
  | [], acc => [acc.reverse]
  | c :: cs, acc =>
    if c = sep then acc.reverse :: pySplitAux sep cs []
    else pySplitAux sep cs (c :: acc)

/-- Python `str.split(sep)` with a one-character separator: always returns
`count sep s + 1` pieces (so `"".split(sep) == ['']`). -/
def pySplit (sep : Char) (s : PyStr) : List PyStr := pySplitAux sep s []

/-- Python `sep.join(pieces)` for a one-character separator. -/
def pyJoin (sep : Char) : List PyStr → PyStr
  | [] => []
  | [s] => s
  | s :: t :: rest => s ++ sep :: pyJoin sep (t :: rest)

theorem pySplitAux_length (sep : Char) :
    ∀ (s : PyStr) (acc : PyStr),
      (pySplitAux sep s acc).length = s.count sep + 1 := by
  intro s
  induction s with
  | nil => intro acc; simp [pySplitAux]
  | cons c cs ih =>
    intro acc
    by_cases h : c = sep
    · simp [pySplitAux, h, ih, List.count_cons]
    · simp [pySplitAux, h, ih, List.count_cons]

theorem pySplit_length (sep : Char) (s : PyStr) :
    (pySplit sep s).length = s.count sep + 1 :=
  pySplitAux_length sep s []

theorem pySplitAux_no_sep (sep : Char) :
    ∀ (s : PyStr) (acc : PyStr), sep ∉ acc →
      ∀ p ∈ pySplitAux sep s acc, sep ∉ p := by
  intro s
  induction s with
  | nil =>
    intro acc hacc p hp
    simp only [pySplitAux, List.mem_singleton] at hp
    subst hp
    simpa using hacc
  | cons c cs ih =>
    intro acc hacc p hp
    by_cases h : c = sep
    · simp only [pySplitAux, if_pos h, List.mem_cons] at hp
      rcases hp with hp | hp
      · subst hp; simpa using hacc
      · exact ih [] (by simp) p hp
    · simp only [pySplitAux, if_neg h] at hp
      refine ih (c :: acc) ?_ p hp
      intro hmem
      rcases List.mem_cons.mp hmem with he | hm
      · exact h he.symm
      · exact hacc hm

theorem pySplit_no_sep (sep : Char) (s : PyStr) :
    ∀ p ∈ pySplit sep s, sep ∉ p :=
  pySplitAux_no_sep sep s [] (by simp)

theorem pyStrip_count_le (sep : Char) (s : PyStr) :
    (pyStrip s).count sep ≤ s.count sep := by
  unfold pyStrip
  rw [List.count_reverse]
  calc ((s.dropWhile Char.isWhitespace).reverse.dropWhile Char.isWhitespace).count sep
      ≤ (s.dropWhile Char.isWhitespace).reverse.count sep :=
        (List.dropWhile_sublist _).count_le _
    _ = (s.dropWhile Char.isWhitespace).count sep := List.count_reverse _ _
    _ ≤ s.count sep := (List.dropWhile_sublist _).count_le _

theorem pyJoin_count (sep : Char) :
    ∀ l : List PyStr, l ≠ [] → (∀ p ∈ l, sep ∉ p) →
      (pyJoin sep l).count sep = l.length - 1 := by
  intro l
  induction l with
  | nil => intro h; exact absurd rfl h
  | cons s rest ih =>
    intro _ hfree
    match rest with
    | [] =>
      simp only [pyJoin, List.length_singleton]
      have : sep ∉ s := hfree s (by simp)
      simp [List.count_eq_zero.mpr this]
    | t :: rest' =>
      have hfree' : ∀ p ∈ t :: rest', sep ∉ p := fun p hp => hfree p (by simp [hp])
      have hs : sep ∉ s := hfree s (by simp)
      simp only [pyJoin, List.count_append, List.count_cons, List.count_eq_zero.mpr hs,
        ih (by simp) hfree']
      simp [List.length_cons]

/-- Number of "lines" of a transcript, counted exactly the way
`save_conversation` does: `text.strip().split('\n')` for non-empty text. -/
def pyNumLines (t : PyStr) : Nat :=
  if t = [] then 0 else (pySplit '\n' (pyStrip t)).length

/-! ## Star scoring (`app.py`, routes `check_repeat` / `check_spelling`)

The `SequenceMatcher.ratio()` similarity is an external input to the star
banding; it is modelled as an exact rational. -/

/-- Star banding of the `check_repeat` route in `app.py` as a function of
the similarity `score`. -/
def check_repeat_stars (score : ℚ) : Nat :=
  if 9 / 10 ≤ score then 3
  else if 3 / 4 ≤ score then 2
  else if 3 / 5 ≤ score then 1
  else 0

/-- Star banding of the `check_spelling` route in `app.py`: the student and
correct word are lower-cased and stripped; an exact match yields 3 stars
without consulting the similarity, otherwise the 0.8 / 0.5 spelling bands
apply to `similarity`. -/
def check_spelling_stars (student_spelling correct_word : PyStr) (similarity : ℚ) : Nat :=
  if pyStrip (pyLower student_spelling) = pyStrip (pyLower correct_word) then 3
  else if 4 / 5 ≤ similarity then 2
  else if 1 / 2 ≤ similarity then 1
  else 0

/-- C2: in repeat mode the stars are given exactly by the bands
`r ≥ 0.9 → 3`, `0.75 ≤ r < 0.9 → 2`, `0.6 ≤ r < 0.75 → 1`, `r < 0.6 → 0`,
and in spelling mode an exact case- and whitespace-normalized match always
yields 3 stars regardless of the similarity ratio. -/
theorem C2_star_bands :
    (∀ r : ℚ, 9 / 10 ≤ r → check_repeat_stars r = 3) ∧
    (∀ r : ℚ, 3 / 4 ≤ r → r < 9 / 10 → check_repeat_stars r = 2) ∧
    (∀ r : ℚ, 3 / 5 ≤ r → r < 3 / 4 → check_repeat_stars r = 1) ∧
    (∀ r : ℚ, r < 3 / 5 → check_repeat_stars r = 0) ∧
    (∀ (s c : PyStr) (r : ℚ), pyStrip (pyLower s) = pyStrip (pyLower c) →
      check_spelling_stars s c r = 3) := by
  refine ⟨?_, ?_, ?_, ?_, ?_⟩
  · intro r h; rw [check_repeat_stars, if_pos h]
  · intro r h1 h2
    rw [check_repeat_stars, if_neg (not_le.mpr h2), if_pos h1]
  · intro r h1 h2
    rw [check_repeat_stars, if_neg (not_le.mpr (h2.trans_le (by norm_num))),
      if_neg (not_le.mpr h2), if_pos h1]
  · intro r h
    rw [check_repeat_stars, if_neg (not_le.mpr (h.trans_le (by norm_num))),
      if_neg (not_le.mpr (h.trans_le (by norm_num))), if_neg (not_le.mpr h)]
  · intro s c r h
    rw [check_spelling_stars, if_pos h]

/-- Witness for C2 at concrete ratios and words. -/
theorem C2_star_bands_witness :
    check_repeat_stars (19 / 20) = 3 ∧ check_repeat_stars (4 / 5) = 2 ∧
    check_repeat_stars (13 / 20) = 1 ∧ check_repeat_stars (1 / 2) = 0 ∧
    check_spelling_stars [' ', 'C', 'a', 't'] ['c', 'a', 't'] 0 = 3 :=
  ⟨C2_star_bands.1 _ (by norm_num),
   C2_star_bands.2.1 _ (by norm_num) (by norm_num),
   C2_star_bands.2.2.1 _ (by norm_num) (by norm_num),
   C2_star_bands.2.2.2.1 _ (by norm_num),
   C2_star_bands.2.2.2.2 _ _ 0 (by decide)⟩

/-! ## Conversation store (`database.py`: `save_conversation` /
`get_conversation`; `app.py`: `update_user_context`)

The `conversations` MongoDB collection holds one document per user id with
a nested map from mode name to transcript.  It is modelled as a list of
documents; `update_one(..., upsert=True)` updates the first matching
document or inserts a new one. -/

/-- First-match lookup in an association list with a default, modelling
Python `dict.get(k, d)`. -/
def lookupD {α : Type} (d : α) (k : String) : List (String × α) → α
  | [] => d
  | (k1, v) :: rest => if k1 = k then v else lookupD d k rest

/-- Set a key in an association list (replace the binding or append it),
modelling `dict[k] = v` / a MongoDB `$set` on a nested field. -/
def setKey {α : Type} (k : String) (v : α) : List (String × α) → List (String × α)
  | [] => [(k, v)]
  | (k1, v1) :: rest =>
    if k1 = k then (k, v) :: rest else (k1, v1) :: setKey k v rest

/-- One document of the `conversations` collection (the `updated_at`
timestamp is not modelled; no claim depends on it). -/
structure ConvDoc where
  user_id : String
  conversations : List (String × PyStr)

abbrev ConvStore := List ConvDoc

/-- Embeds `update_one({'user_id': uid}, {'$set': {f'conversations.{mode}': text}}, upsert=True)`:
update the first document whose `user_id` matches, or insert a new one. -/
def upsertConv (uid mode : String) (text : PyStr) : ConvStore → ConvStore
  | [] => [⟨uid, [(mode, text)]⟩]
  | d :: rest =>
    if d.user_id = uid then
      { d with conversations := setKey mode text d.conversations } :: rest
    else d :: upsertConv uid mode text rest

/-- The per-mode trim limit of `save_conversation`: 100 lines for
`conversation`, 50 for every other (roleplay) mode. -/
def conv_line_limit (mode : String) : Nat :=
  if mode = "conversation" then 100 else 50

/-- Embeds `msgs = conversation_text.strip().split('\n') if conversation_text else []`. -/
def conv_msgs (conversation_text : PyStr) : List PyStr :=
  if conversation_text = [] then [] else pySplit '\n' (pyStrip conversation_text)

/-- Embeds `save_conversation` from `database.py`: trims the text to the last
`limit` lines when it has more, then upserts it under
`conversations.<mode>` of the user's document.  Returns `False` without
touching anything when the collection handle is `None`. -/
def save_conversation (conv : Option ConvStore) (uid mode : String)
    (conversation_text : PyStr) : Option ConvStore × Bool :=
  match conv with
  | none => (none, false)
  | some store =>
    (some (upsertConv uid mode
      (if conv_line_limit mode < (conv_msgs conversation_text).length then
        pyJoin '\n' ((conv_msgs conversation_text).drop
          ((conv_msgs conversation_text).length - conv_line_limit mode))
      else conversation_text) store), true)

/-- Embeds `get_conversation` from `database.py`: empty string when the handle is
`None`, the document is missing, or the mode has no entry. -/
def get_conversation (conv : Option ConvStore) (uid mode : String) : PyStr :=
  match conv with
  | none => []
  | some store =>
    match store.find? (fun d => d.user_id == uid) with
    | some doc => lookupD [] mode doc.conversations
    | none => []

theorem lookupD_setKey_self {α : Type} (d : α) (k : String) (v : α) :
    ∀ l, lookupD d k (setKey k v l) = v := by
  intro l
  induction l with
  | nil => simp [setKey, lookupD]
  | cons p rest ih =>
    obtain ⟨k1, v1⟩ := p
    by_cases h : k1 = k
    · simp [setKey, h, lookupD]
    · simp [setKey, h, lookupD, ih]

theorem lookupD_setKey_other {α : Type} (d : α) {k k' : String} (h : k' ≠ k) (v : α) :
    ∀ l, lookupD d k' (setKey k v l) = lookupD d k' l := by
  have hkk : ¬k = k' := fun he => h he.symm
  intro l
  induction l with
  | nil =>
    show (if k = k' then v else d) = d
    rw [if_neg hkk]
  | cons p rest ih =>
    obtain ⟨k1, v1⟩ := p
    by_cases hk : k1 = k
    · subst hk
      simp only [setKey, if_pos rfl, lookupD]
      rw [if_neg hkk, if_neg hkk]
    · simp only [setKey, if_neg hk, lookupD]
      rw [ih]

theorem get_upsertConv_self (uid mode : String) (t : PyStr) :
    ∀ store, get_conversation (some (upsertConv uid mode t store)) uid mode = t := by
  intro store
  induction store with
  | nil => simp [upsertConv, get_conversation, List.find?, lookupD]
  | cons d rest ih =>
    by_cases h : d.user_id = uid
    · simp [upsertConv, h, get_conversation, List.find?, lookupD_setKey_self]
    · have hb : (d.user_id == uid) = false := by simp [h]
      simp only [upsertConv, if_neg h, get_conversation, List.find?, hb]
      simpa [get_conversation] using ih

theorem get_upsertConv_other_mode (uid mode mode' : String) (t : PyStr)
    (h : mode' ≠ mode) :
    ∀ store, get_conversation (some (upsertConv uid mode t store)) uid mode' =
      get_conversation (some store) uid mode' := by
  intro store
  induction store with
  | nil =>
    simp [upsertConv, get_conversation, List.find?, lookupD]
    intro he
    exact absurd he.symm h
  | cons d rest ih =>
    by_cases hd : d.user_id = uid
    · simp [upsertConv, hd, get_conversation, List.find?, lookupD_setKey_other _ h]
    · have hb : (d.user_id == uid) = false := by simp [hd]
      simp only [upsertConv, if_neg hd, get_conversation, List.find?, hb]
      simpa [get_conversation] using ih

theorem conv_line_limit_pos (mode : String) : 0 < conv_line_limit mode := by
  unfold conv_line_limit
  split <;> omega

/-- C5: after any save, the stored transcript of the saved `(user, mode)`
slot has at most 100 lines for `conversation` mode and at most 50 for any
other (roleplay) mode, and whenever the pre-trim text has more lines than
the limit, exactly the most recent `limit` lines are kept. -/
theorem C5_context_trimming (store : ConvStore) (uid mode : String) (text : PyStr) :
    pyNumLines (get_conversation (save_conversation (some store) uid mode text).1 uid mode)
      ≤ conv_line_limit mode ∧
    (conv_line_limit mode < (conv_msgs text).length →
      get_conversation (save_conversation (some store) uid mode text).1 uid mode =
        pyJoin '\n' ((conv_msgs text).drop ((conv_msgs text).length - conv_line_limit mode))) := by
  simp only [save_conversation]
  by_cases hlen : conv_line_limit mode < (conv_msgs text).length
  · rw [if_pos hlen]
    rw [get_upsertConv_self]
    refine ⟨?_, fun _ => rfl⟩
    have htext : text ≠ [] := by
      intro he
      rw [he] at hlen
      have h0 : (conv_msgs ([] : PyStr)).length = 0 := by simp [conv_msgs]
      omega
    have hmsgs : conv_msgs text = pySplit '\n' (pyStrip text) := by
      simp [conv_msgs, htext]
    have hlenl : ((conv_msgs text).drop
        ((conv_msgs text).length - conv_line_limit mode)).length = conv_line_limit mode := by
      rw [List.length_drop]
      omega
    have hfree : ∀ p ∈ (conv_msgs text).drop
        ((conv_msgs text).length - conv_line_limit mode), '\n' ∉ p := by
      intro p hp
      have hmem : p ∈ conv_msgs text := List.mem_of_mem_drop hp
      rw [hmsgs] at hmem
      exact pySplit_no_sep '\n' (pyStrip text) p hmem
    have hne : (conv_msgs text).drop
        ((conv_msgs text).length - conv_line_limit mode) ≠ [] := by
      intro he
      rw [he] at hlenl
      have := conv_line_limit_pos mode
      simp at hlenl
      omega
    have hcount : (pyJoin '\n' ((conv_msgs text).drop
        ((conv_msgs text).length - conv_line_limit mode))).count '\n' =
        conv_line_limit mode - 1 := by
      rw [pyJoin_count '\n' _ hne hfree, hlenl]
    unfold pyNumLines
    by_cases hje : pyJoin '\n' ((conv_msgs text).drop
        ((conv_msgs text).length - conv_line_limit mode)) = []
    · rw [if_pos hje]; omega
    · rw [if_neg hje, pySplit_length]
      have hle := pyStrip_count_le '\n' (pyJoin '\n' ((conv_msgs text).drop
        ((conv_msgs text).length - conv_line_limit mode)))
      have := conv_line_limit_pos mode
      omega
  · rw [if_neg hlen]
    rw [get_upsertConv_self]
    refine ⟨?_, fun h => absurd h hlen⟩
    unfold pyNumLines
    by_cases hte : text = []
    · rw [if_pos hte]; omega
    · rw [if_neg hte]
      have hmsgs : conv_msgs text = pySplit '\n' (pyStrip text) := by
        simp [conv_msgs, hte]
      rw [← hmsgs]
      omega

/-- Witness transcript for C5: 52 one-character lines. -/
def sampleTranscript : PyStr := pyJoin '\n' (List.replicate 52 ['a'])

/-- Witness for C5: saving a 52-line transcript to a roleplay mode keeps
exactly the last 50 lines. -/
theorem C5_context_trimming_witness :
    pyNumLines (get_conversation
        (save_conversation (some []) "0001" "roleplay_teacher" sampleTranscript).1
        "0001" "roleplay_teacher") ≤ conv_line_limit "roleplay_teacher" ∧
    get_conversation
        (save_conversation (some []) "0001" "roleplay_teacher" sampleTranscript).1
        "0001" "roleplay_teacher" =
      pyJoin '\n' ((conv_msgs sampleTranscript).drop
        ((conv_msgs sampleTranscript).length - conv_line_limit "roleplay_teacher")) :=
  ⟨(C5_context_trimming [] "0001" "roleplay_teacher" sampleTranscript).1,
   (C5_context_trimming [] "0001" "roleplay_teacher" sampleTranscript).2 (by decide)⟩

/-- C6: saving the conversation context of one mode leaves the stored
transcript of every other mode of the same user unchanged. -/
theorem C6_context_isolation (store : ConvStore) (uid mode mode' : String)
    (text : PyStr) (h : mode' ≠ mode) :
    get_conversation (save_conversation (some store) uid mode text).1 uid mode' =
      get_conversation (some store) uid mode' := by
  simp only [save_conversation]
  exact get_upsertConv_other_mode uid mode mode' _ h store

/-- Witness for C6: writing to `roleplay_teacher` does not change the
stored `roleplay_friend` transcript. -/
theorem C6_context_isolation_witness :
    get_conversation
        (save_conversation (some [⟨"0001", [("roleplay_friend", ['h', 'i'])]⟩])
          "0001" "roleplay_teacher" ['y', 'o']).1 "0001" "roleplay_friend" =
      get_conversation (some [⟨"0001", [("roleplay_friend", ['h', 'i'])]⟩])
        "0001" "roleplay_friend" :=
  C6_context_isolation [⟨"0001", [("roleplay_friend", ['h', 'i'])]⟩]
    "0001" "roleplay_teacher" "roleplay_friend" ['y', 'o'] (by decide)

/-! ## Users collection, achievements and badges (`database.py`) -/

/-- The `achievements` sub-document, as initialised by
`init_user_achievements` and mutated by the tracker functions. -/
structure Achievements where
  badges_earned : List String
  daily_login_streak : Nat
  max_login_streak : Nat
  last_login : Option String
  conversation_count : Nat
  roleplay_count : Nat
  repeat_count : Nat
  spelling_count : Nat
  vocabulary_count : Nat
  high_pronunciation_count : Nat
  challenge_streak : Nat
deriving DecidableEq

/-- Embeds `init_user_achievements` from `database.py`. -/
def init_user_achievements : Achievements :=
  { badges_earned := [], daily_login_streak := 0, max_login_streak := 0,
    last_login := none, conversation_count := 0, roleplay_count := 0,
    repeat_count := 0, spelling_count := 0, vocabulary_count := 0,
    high_pronunciation_count := 0, challenge_streak := 0 }

/-- One weekly challenge slot (`challenge1`..`challenge3`):
`{'type','target','current','completed','xp'}`. -/
structure Challenge where
  ctype : String
  target : Nat
  current : Nat
  completed : Bool
  xp : Nat
deriving DecidableEq

/-- The `daily_challenges` sub-document for one week. -/
structure Challenges where
  week : String
  challenge1 : Challenge
  challenge2 : Challenge
  challenge3 : Challenge
  completed_today : Nat
  streak : Nat
deriving DecidableEq

/-- A document of the `users` collection.  Fields not consulted by any
verified claim (`mode_stats`, `mistakes`, `created_at`, password) are
omitted; `daily_challenges` is `none` for the initial `{}` value. -/
structure User where
  _id : String
  username : String
  name : Option String
  className : PyStr
  division : PyStr
  user_type : String
  total_xp : Nat
  total_stars : Nat
  level : Nat
  last_active : String
  achievements : Achievements
  weekly_xp : List (String × Nat)
  daily_challenges : Option Challenges
  security_question : Option String
  security_answer : Option PyStr
deriving DecidableEq

abbrev UsersStore := List User

/-- Embeds `users_collection.find_one({'_id': uid})`: first matching document. -/
def find_user (store : UsersStore) (uid : String) : Option User :=
  store.find? (fun u => u._id == uid)

/-- Apply `f` to the first element satisfying `p` (MongoDB `update_one`
touches only the first matching document). -/
def updateFirst {α : Type} (p : α → Bool) (f : α → α) : List α → List α
  | [] => []
  | a :: rest => if p a then f a :: rest else a :: updateFirst p f rest

/-- Embeds `users_collection.update_one({'_id': uid}, {'$set': ...})` with the
`$set` payload given as a document transformer. -/
def update_user_doc (store : UsersStore) (uid : String) (f : User → User) : UsersStore :=
  updateFirst (fun u => u._id == uid) f store

theorem find?_updateFirst {α : Type} (p : α → Bool) (f : α → α)
    (hp : ∀ a, p a = true → p (f a) = true) :
    ∀ l : List α, List.find? p (updateFirst p f l) = (List.find? p l).map f := by
  intro l
  induction l with
  | nil => simp [updateFirst]
  | cons a rest ih =>
    by_cases h : p a = true
    · simp [updateFirst, h, List.find?, hp a h]
    · have hfa : p a = false := by simp at h; simp [h]
      simp [updateFirst, hfa, List.find?, ih]

theorem find_user_update (store : UsersStore) (uid : String) (f : User → User)
    (hid : ∀ u, (f u)._id = u._id) :
    find_user (update_user_doc store uid f) uid = (find_user store uid).map f := by
  unfold find_user update_user_doc
  exact find?_updateFirst _ f (fun u hu => by simpa [hid u] using hu) store

/-- The static badge catalog `ALL_BADGES` from `database.py` (an insertion-
ordered dict, modelled as an association list in the same order).  The
`type` key is named `btype`. -/
structure Badge where
  name : String
  icon : String
  desc : String
  btype : String
  req : Nat
deriving DecidableEq

def ALL_BADGES : List (String × Badge) :=
  [("level_2", ⟨"Level 2 Reached!", "🏅", "Reach Level 2", "level", 2⟩),
   ("level_5", ⟨"Level 5 Star!", "🌠", "Reach Level 5", "level", 5⟩),
   ("level_10", ⟨"Level 10 Legend!", "🏆", "Reach Level 10", "level", 10⟩),
   ("level_15", ⟨"Level 15 Pro!", "💎", "Reach Level 15", "level", 15⟩),
   ("xp_25", ⟨"First 25 XP!", "✨", "Earn your first 25 XP", "total_xp", 25⟩),
   ("xp_100", ⟨"100 XP Club!", "💯", "Earn 100 XP", "total_xp", 100⟩),
   ("xp_500", ⟨"500 XP Achiever!", "🎯", "Earn 500 XP", "total_xp", 500⟩),
   ("xp_1000", ⟨"1000 XP Master!", "🚀", "Earn 1000 XP", "total_xp", 1000⟩),
   ("conv_5", ⟨"First Chat!", "💬", "Have 5 English conversations", "conversation_count", 5⟩),
   ("conv_25", ⟨"Chatterbox!", "🗣️", "Have 25 conversations", "conversation_count", 25⟩),
   ("roleplay_5", ⟨"Roleplay Beginner!", "🎭", "Complete 5 roleplay sessions", "roleplay_count", 5⟩),
   ("roleplay_20", ⟨"Drama Star!", "🎬", "Complete 20 roleplay sessions", "roleplay_count", 20⟩),
   ("repeat_10", ⟨"First 10 Sentences!", "🔁", "Repeat 10 sentences correctly", "repeat_count", 10⟩),
   ("repeat_50", ⟨"Repeat Champ!", "🎤", "Repeat 50 sentences correctly", "repeat_count", 50⟩),
   ("repeat_200", ⟨"Repeat Master!", "🌟", "Repeat 200 sentences correctly", "repeat_count", 200⟩),
   ("spell_5", ⟨"First 5 Words!", "🐝", "Spell 5 words correctly", "spelling_count", 5⟩),
   ("spell_25", ⟨"Speller!", "📝", "Spell 25 words correctly", "spelling_count", 25⟩),
   ("spell_100", ⟨"Spell Master!", "📚", "Spell 100 words correctly", "spelling_count", 100⟩),
   ("vocab_10", ⟨"Word Explorer!", "📖", "Look up 10 word meanings", "vocabulary_count", 10⟩),
   ("vocab_50", ⟨"Word Collector!", "📚", "Look up 50 word meanings", "vocabulary_count", 50⟩),
   ("perfect_5", ⟨"Pronunciation Star!", "💫", "Score 80%+ pronunciation 5 times", "high_pronunciation_count", 5⟩),
   ("perfect_25", ⟨"Pronunciation Pro!", "⭐", "Score 80%+ pronunciation 25 times", "high_pronunciation_count", 25⟩)]

/-- Embeds `achievements.get(vt, 0)` for the numeric achievement counters. -/
def achievements_get (a : Achievements) (k : String) : Nat :=
  if k = "daily_login_streak" then a.daily_login_streak
  else if k = "max_login_streak" then a.max_login_streak
  else if k = "conversation_count" then a.conversation_count
  else if k = "roleplay_count" then a.roleplay_count
  else if k = "repeat_count" then a.repeat_count
  else if k = "spelling_count" then a.spelling_count
  else if k = "vocabulary_count" then a.vocabulary_count
  else if k = "high_pronunciation_count" then a.high_pronunciation_count
  else if k = "challenge_streak" then a.challenge_streak
  else 0

/-- The comparison value for a badge `type` in `check_and_award_badges`:
`level` → user level, `total_xp` → user XP, otherwise the named
achievement counter (0 if absent). -/
def badge_value (user : User) (vt : String) : Nat :=
  if vt = "level" then user.level
  else if vt = "total_xp" then user.total_xp
  else achievements_get user.achievements vt

/-- The list of badges newly qualifying in this pass of the
`for bid, badge in ALL_BADGES.items()` loop of `check_and_award_badges`. -/
def new_badges_for (user : User) : List String :=
  (ALL_BADGES.filter (fun p =>
    !(user.achievements.badges_earned.contains p.1) &&
    decide (p.2.req ≤ badge_value user p.2.btype))).map Prod.fst

/-- The `$set` payload of `check_and_award_badges`, where the stored list
is the one read from the fetched document extended by the new badges
(`earned.extend(new_badges)`). -/
def award_badges_update (nb earned : List String) (u : User) : User :=
  { u with achievements := { u.achievements with badges_earned := earned ++ nb } }

/-- Body of `check_and_award_badges` once the collection handle is known
to exist.  The `isinstance` repair branches of the Python code are
unreachable in this typed model. -/
def check_and_award_badges_core (store : UsersStore) (uid : String) :
    List String × UsersStore :=
  match find_user store uid with
  | none => ([], store)
  | some user =>
    let nb := new_badges_for user
    if nb = [] then (nb, store)
    else
      (nb, update_user_doc store uid
        (award_badges_update nb user.achievements.badges_earned))

/-- Embeds `check_and_award_badges` from `database.py` including the
`users_collection is None` guard. -/
def check_and_award_badges (users : Option UsersStore) (uid : String) :
    List String × Option UsersStore :=
  match users with
  | none => ([], none)
  | some store =>
    ((check_and_award_badges_core store uid).1,
     some (check_and_award_badges_core store uid).2)

/-- The earned-badge set of a user as observable through the store. -/
def badges_of (users : Option UsersStore) (uid : String) : List String :=
  match users with
  | none => []
  | some store =>
    match find_user store uid with
    | some u => u.achievements.badges_earned
    | none => []

theorem achievements_get_badges_irrel (a : Achievements) (x : List String) (k : String) :
    achievements_get { a with badges_earned := x } k = achievements_get a k := rfl

theorem badge_value_after_award (user : User) (x : List String) (vt : String) :
    badge_value
      { user with achievements := { user.achievements with badges_earned := x } } vt =
    badge_value user vt := by
  unfold badge_value
  by_cases h1 : vt = "level"
  · simp [h1]
  · by_cases h2 : vt = "total_xp"
    · simp [h2]
    · simp [h1, h2, achievements_get_badges_irrel]

theorem mem_new_badges_of (user : User) {p : String × Badge}
    (hp : p ∈ ALL_BADGES) (hnotE : p.1 ∉ user.achievements.badges_earned)
    (hreq : p.2.req ≤ badge_value user p.2.btype) :
    p.1 ∈ new_badges_for user := by
  unfold new_badges_for
  refine List.mem_map.mpr ⟨p, List.mem_filter.mpr ⟨hp, ?_⟩, rfl⟩
  simp [List.contains, hnotE, hreq]

theorem new_badges_eq_nil_of (user : User)
    (h : ∀ p ∈ ALL_BADGES, p.2.req ≤ badge_value user p.2.btype →
        p.1 ∈ user.achievements.badges_earned) :
    new_badges_for user = [] := by
  unfold new_badges_for
  rw [List.map_eq_nil_iff, List.filter_eq_nil_iff]
  intro p hp hpred
  simp only [Bool.and_eq_true, Bool.not_eq_true', decide_eq_true_eq] at hpred
  obtain ⟨hnc, hreq⟩ := hpred
  simp only [List.contains, List.elem_eq_mem, decide_eq_false_iff_not] at hnc
  exact hnc (h p hp hreq)

theorem award_badges_update_id (nb earned : List String) (u : User) :
    (award_badges_update nb earned u)._id = u._id := rfl

theorem award_badges_update_earned (nb earned : List String) (u : User) :
    (award_badges_update nb earned u).achievements.badges_earned = earned ++ nb := rfl

theorem badge_value_award (nb earned : List String) (u : User) (vt : String) :
    badge_value (award_badges_update nb earned u) vt = badge_value u vt :=
  badge_value_after_award u (earned ++ nb) vt

theorem new_badges_award_self (user : User) :
    new_badges_for
      (award_badges_update (new_badges_for user) user.achievements.badges_earned user)
      = [] := by
  apply new_badges_eq_nil_of
  intro p hp hreq
  rw [badge_value_award] at hreq
  rw [award_badges_update_earned]
  by_cases hE : p.1 ∈ user.achievements.badges_earned
  · exact List.mem_append_left _ hE
  · exact List.mem_append_right _ (mem_new_badges_of user hp hE hreq)

theorem find_cab_core (store : UsersStore) (uid : String) (user : User)
    (hfind : find_user store uid = some user)
    (hnb : new_badges_for user ≠ []) :
    find_user (check_and_award_badges_core store uid).2 uid =
      some (award_badges_update (new_badges_for user)
        user.achievements.badges_earned user) := by
  simp only [check_and_award_badges_core, hfind, if_neg hnb]
  rw [find_user_update store uid
    (award_badges_update (new_badges_for user) user.achievements.badges_earned)
    (fun u => award_badges_update_id _ _ u), hfind]
  rfl

theorem cab_core_idem (store : UsersStore) (uid : String) :
    (check_and_award_badges_core (check_and_award_badges_core store uid).2 uid).1 = [] := by
  cases hfind : find_user store uid with
  | none => simp [check_and_award_badges_core, hfind]
  | some user =>
    by_cases hnb : new_badges_for user = []
    · simp [check_and_award_badges_core, hfind, hnb]
    · have hfind2 := find_cab_core store uid user hfind hnb
      rw [check_and_award_badges_core, hfind2]
      simp [new_badges_award_self]

theorem cab_core_mono (store : UsersStore) (uid bid : String)
    (h : bid ∈ badges_of (some store) uid) :
    bid ∈ badges_of (some (check_and_award_badges_core store uid).2) uid := by
  cases hfind : find_user store uid with
  | none => simpa [check_and_award_badges_core, hfind] using h
  | some user =>
    simp only [badges_of, hfind] at h
    by_cases hnb : new_badges_for user = []
    · simpa [check_and_award_badges_core, hfind, hnb, badges_of] using h
    · have hfind2 := find_cab_core store uid user hfind hnb
      simp only [badges_of, hfind2, award_badges_update_earned]
      exact List.mem_append_left _ h

/-- C8: badge evaluation is idempotent — a second run of
`check_and_award_badges` with no intervening state change awards nothing —
and the earned set only ever grows (an id already earned is never lost and
never re-awarded). -/
theorem C8_badge_idempotence (store : UsersStore) (uid : String) :
    (check_and_award_badges (check_and_award_badges (some store) uid).2 uid).1 = [] ∧
    ∀ bid, bid ∈ badges_of (some store) uid →
      bid ∈ badges_of (check_and_award_badges (some store) uid).2 uid := by
  constructor
  · simpa [check_and_award_badges] using cab_core_idem store uid
  · intro bid h
    simpa [check_and_award_badges] using cab_core_mono store uid bid h

/-- Concrete user for the C8 witness: has already earned `level_2`. -/
def c8User : User :=
  { _id := "0002", username := "kid", name := none, className := ['5'],
    division := ['A'], user_type := "student", total_xp := 30, total_stars := 0,
    level := 2, last_active := "",
    achievements := { init_user_achievements with badges_earned := ["level_2"] },
    weekly_xp := [], daily_challenges := none,
    security_question := none, security_answer := none }

/-- Witness for C8 on a concrete one-user store. -/
theorem C8_badge_idempotence_witness :
    (check_and_award_badges (check_and_award_badges (some [c8User]) "0002").2 "0002").1 = [] ∧
    "level_2" ∈ badges_of (check_and_award_badges (some [c8User]) "0002").2 "0002" :=
  ⟨(C8_badge_idempotence [c8User] "0002").1,
   (C8_badge_idempotence [c8User] "0002").2 "level_2" (by decide)⟩

/-! ## Weekly challenges (`database.py`: `get_daily_challenges` /
`update_challenge_progress`)

The current ISO week key (`get_week_key()`, wall clock) is passed as an
explicit `week` parameter. -/

/-- The fresh 3-challenge set installed by `get_daily_challenges` on
rollover. -/
def fresh_challenges (week : String) (streak : Nat) : Challenges :=
  { week := week,
    challenge1 := { ctype := "practice", target := 5, current := 0, completed := false, xp := 5 },
    challenge2 := { ctype := "learning", target := 10, current := 0, completed := false, xp := 5 },
    challenge3 := { ctype := "mastery", target := 3, current := 0, completed := false, xp := 5 },
    completed_today := 0, streak := streak }

/-- The stale-week branch of `get_daily_challenges`: build the fresh set,
carry the streak (`+1` when `completed_today == 3`, else 0), award the
`challenge_streak` achievement and re-check badges when the new streak
reaches 7, and store the fresh set. -/
def challenges_rollover (store : UsersStore) (uid week : String)
    (streak completed_today : Nat) : Option Challenges × UsersStore :=
  let new_streak := if completed_today = 3 then streak + 1 else 0
  let fresh := fresh_challenges week new_streak
  let store1 :=
    if 7 ≤ new_streak then
      (check_and_award_badges_core
        (update_user_doc store uid (fun u =>
          { u with achievements :=
              { u.achievements with challenge_streak := new_streak } })) uid).2
    else store
  (some fresh,
   update_user_doc store1 uid (fun u => { u with daily_challenges := some fresh }))

/-- Body of `get_daily_challenges`: the stored set is returned as-is when
its week key matches, otherwise the rollover runs.  The missing
`daily_challenges` field (`{}` in Python) rolls over with
`streak = 0, completed_today = 0`. -/
def get_daily_challenges_core (store : UsersStore) (week uid : String) :
    Option Challenges × UsersStore :=
  match find_user store uid with
  | none => (none, store)
  | some user =>
    match user.daily_challenges with
    | some c =>
      if c.week = week then (some c, store)
      else challenges_rollover store uid week c.streak c.completed_today
    | none => challenges_rollover store uid week 0 0

/-- Embeds `get_daily_challenges` from `database.py` with the collection guard. -/
def get_daily_challenges (users : Option UsersStore) (week uid : String) :
    Option Challenges × Option UsersStore :=
  match users with
  | none => (none, none)
  | some store =>
    ((get_daily_challenges_core store week uid).1,
     some (get_daily_challenges_core store week uid).2)

/-- The per-slot mutation of `update_challenge_progress`: when the slot is
not yet completed, advance `current` by `increment` capped at `target`; on
reaching the target mark it completed.  Returns the updated slot, the
`completed_today` delta (0 or 1) and the slot XP earned. -/
def step_challenge (ch : Challenge) (increment : Nat) : Challenge × Nat × Nat :=
  if ch.completed then (ch, 0, 0)
  else
    if ch.target ≤ min ch.target (ch.current + increment) then
      ({ ch with current := min ch.target (ch.current + increment), completed := true },
       1, ch.xp)
    else ({ ch with current := min ch.target (ch.current + increment) }, 0, 0)

/-- The in-place mutation of the challenges dict performed by
`update_challenge_progress`.  The slot is addressed through
`type_map = {'practice': 'challenge1', 'learning': 'challenge2',
'mastery': 'challenge3'}`; an unrecognized type leaves the dict untouched.
Returns the updated dict and the slot XP earned. -/
def apply_challenge_increment (challenges : Challenges) (challenge_type : String)
    (increment : Nat) : Challenges × Nat :=
  if challenge_type = "practice" then
    ({ challenges with
        challenge1 := (step_challenge challenges.challenge1 increment).1,
        completed_today := challenges.completed_today +
          (step_challenge challenges.challenge1 increment).2.1 },
     (step_challenge challenges.challenge1 increment).2.2)
  else if challenge_type = "learning" then
    ({ challenges with
        challenge2 := (step_challenge challenges.challenge2 increment).1,
        completed_today := challenges.completed_today +
          (step_challenge challenges.challenge2 increment).2.1 },
     (step_challenge challenges.challenge2 increment).2.2)
  else if challenge_type = "mastery" then
    ({ challenges with
        challenge3 := (step_challenge challenges.challenge3 increment).1,
        completed_today := challenges.completed_today +
          (step_challenge challenges.challenge3 increment).2.1 },
     (step_challenge challenges.challenge3 increment).2.2)
  else (challenges, 0)

/-- Tail of `update_challenge_progress`: store the updated challenges
dict; when XP was earned, re-read the user, add the XP, recompute the
level and re-check badges. -/
def challenge_award_xp (store : UsersStore) (uid : String) (challenges : Challenges)
    (xp_earned : Nat) : Nat × UsersStore :=
  let s2 := update_user_doc store uid (fun u => { u with daily_challenges := some challenges })
  if 0 < xp_earned then
    match find_user s2 uid with
    | none => (xp_earned, s2)
    | some cur_user =>
      (xp_earned,
       (check_and_award_badges_core
         (update_user_doc s2 uid (fun u =>
           { u with total_xp := cur_user.total_xp + xp_earned,
                    level := calculate_level_from_xp (cur_user.total_xp + xp_earned) })) uid).2)
  else (xp_earned, s2)

/-- Body of `update_challenge_progress`: note that the flat 10 XP bonus
check `completed_today == 3` sits outside the slot-completion branch, so
it fires on every call made while all three challenges stand completed. -/
def update_challenge_progress_core (store : UsersStore) (week uid challenge_type : String)
    (increment : Nat) : Nat × UsersStore :=
  match get_daily_challenges_core store week uid with
  | (none, s1) => (0, s1)
  | (some challenges, s1) =>
    challenge_award_xp s1 uid (apply_challenge_increment challenges challenge_type increment).1
      ((apply_challenge_increment challenges challenge_type increment).2 +
        (if (apply_challenge_increment challenges challenge_type increment).1.completed_today = 3
         then 10 else 0))

/-- Embeds `update_challenge_progress` from `database.py` with the collection
guard. -/
def update_challenge_progress (users : Option UsersStore) (week uid challenge_type : String)
    (increment : Nat) : Nat × Option UsersStore :=
  match users with
  | none => (0, none)
  | some store =>
    ((update_challenge_progress_core store week uid challenge_type increment).1,
     some (update_challenge_progress_core store week uid challenge_type increment).2)

/-- The user's total XP as observable through the store. -/
def total_xp_of (users : Option UsersStore) (uid : String) : Nat :=
  match users with
  | none => 0
  | some store =>
    match find_user store uid with
    | some u => u.total_xp
    | none => 0

/-- The user's stored challenge set as observable through the store. -/
def daily_challenges_of (users : Option UsersStore) (uid : String) : Option Challenges :=
  match users with
  | none => none
  | some store =>
    match find_user store uid with
    | some u => u.daily_challenges
    | none => none

/-- Number of completed slots in a challenge set; the code maintains
`completed_today` equal to this count. -/
def completed_count (c : Challenges) : Nat :=
  (if c.challenge1.completed then 1 else 0) +
  (if c.challenge2.completed then 1 else 0) +
  (if c.challenge3.completed then 1 else 0)

theorem fresh_challenges_inv (week : String) (streak : Nat) :
    (fresh_challenges week streak).completed_today =
      completed_count (fresh_challenges week streak) := rfl

theorem step_challenge_flag (ch : Challenge) (inc : Nat) :
    (if (step_challenge ch inc).1.completed then 1 else 0) =
      (if ch.completed then 1 else 0) + (step_challenge ch inc).2.1 := by
  unfold step_challenge
  split_ifs <;> simp_all

theorem apply_challenge_increment_inv (c : Challenges) (t : String) (inc : Nat)
    (h : c.completed_today = completed_count c) :
    (apply_challenge_increment c t inc).1.completed_today =
      completed_count (apply_challenge_increment c t inc).1 := by
  unfold apply_challenge_increment
  by_cases h1 : t = "practice"
  · rw [if_pos h1]
    unfold completed_count at h ⊢
    dsimp only
    rw [step_challenge_flag c.challenge1 inc]
    omega
  rw [if_neg h1]
  by_cases h2 : t = "learning"
  · rw [if_pos h2]
    unfold completed_count at h ⊢
    dsimp only
    rw [step_challenge_flag c.challenge2 inc]
    omega
  rw [if_neg h2]
  by_cases h3 : t = "mastery"
  · rw [if_pos h3]
    unfold completed_count at h ⊢
    dsimp only
    rw [step_challenge_flag c.challenge3 inc]
    omega
  · rw [if_neg h3]
    exact h

theorem find_user_isSome_update (store : UsersStore) (uid : String) (f : User → User)
    (hid : ∀ u, (f u)._id = u._id) (h : (find_user store uid).isSome) :
    (find_user (update_user_doc store uid f) uid).isSome := by
  rw [find_user_update store uid f hid]
  cases hf : find_user store uid with
  | none => rw [hf] at h; simp at h
  | some u => simp

theorem find_user_isSome_cab (store : UsersStore) (uid : String)
    (h : (find_user store uid).isSome) :
    (find_user (check_and_award_badges_core store uid).2 uid).isSome := by
  cases hfind : find_user store uid with
  | none => rw [hfind] at h; simp at h
  | some user =>
    by_cases hnb : new_badges_for user = []
    · simp [check_and_award_badges_core, hfind, hnb]
    · rw [find_cab_core store uid user hfind hnb]
      simp

theorem daily_challenges_of_set (store : UsersStore) (uid : String) (c : Challenges)
    (hex : (find_user store uid).isSome) :
    daily_challenges_of (some (update_user_doc store uid
      (fun u => { u with daily_challenges := some c }))) uid = some c := by
  simp only [daily_challenges_of]
  rw [find_user_update store uid (fun u => { u with daily_challenges := some c })
    (fun u => rfl)]
  cases hf : find_user store uid with
  | none => rw [hf] at hex; simp at hex
  | some u => simp

/-- C4: when the stored challenge set is from a different week, fetching
challenges returns — and installs in the store — a fresh 3-challenge set
whose streak is the prior streak + 1 if all 3 prior challenges were
completed and 0 otherwise.  (`completed_today` equals the number of
completed slots on every set the code itself produces; see
`fresh_challenges_inv` and `apply_challenge_increment_inv`.) -/
theorem C4_weekly_rollover (store : UsersStore) (week uid : String) (u : User)
    (c : Challenges) (hu : find_user store uid = some u)
    (hc : u.daily_challenges = some c) (hw : c.week ≠ week)
    (hinv : c.completed_today = completed_count c) :
    (get_daily_challenges (some store) week uid).1 =
      some (fresh_challenges week
        (if c.challenge1.completed ∧ c.challenge2.completed ∧ c.challenge3.completed
         then c.streak + 1 else 0)) ∧
    daily_challenges_of (get_daily_challenges (some store) week uid).2 uid =
      some (fresh_challenges week
        (if c.challenge1.completed ∧ c.challenge2.completed ∧ c.challenge3.completed
         then c.streak + 1 else 0)) := by
  have hstreak : (if c.completed_today = 3 then c.streak + 1 else 0) =
      (if c.challenge1.completed ∧ c.challenge2.completed ∧ c.challenge3.completed
       then c.streak + 1 else 0) := by
    rw [hinv]
    unfold completed_count
    cases c.challenge1.completed <;> cases c.challenge2.completed <;>
      cases c.challenge3.completed <;> simp
  simp only [get_daily_challenges, get_daily_challenges_core, hu, hc, if_neg hw,
    challenges_rollover]
  rw [hstreak]
  refine ⟨rfl, ?_⟩
  apply daily_challenges_of_set
  by_cases h7 : 7 ≤ (if c.challenge1.completed ∧ c.challenge2.completed ∧
      c.challenge3.completed then c.streak + 1 else 0)
  · rw [if_pos h7]
    apply find_user_isSome_cab
    apply find_user_isSome_update
    · intro v; rfl
    · rw [hu]; rfl
  · rw [if_neg h7]
    rw [hu]; rfl

/-- Witness challenge set for C4: previous week, all 3 completed,
streak 1. -/
def c4Challenges : Challenges :=
  { week := "2026-W40",
    challenge1 := { ctype := "practice", target := 5, current := 5, completed := true, xp := 5 },
    challenge2 := { ctype := "learning", target := 10, current := 10, completed := true, xp := 5 },
    challenge3 := { ctype := "mastery", target := 3, current := 3, completed := true, xp := 5 },
    completed_today := 3, streak := 1 }

def c4User : User :=
  { _id := "0003", username := "zee", name := none, className := ['5'], division := ['A'],
    user_type := "student", total_xp := 0, total_stars := 0, level := 1, last_active := "",
    achievements := init_user_achievements, weekly_xp := [],
    daily_challenges := some c4Challenges, security_question := none, security_answer := none }

/-- Witness for C4: fetching in week 2026-W41 after a fully completed
2026-W40 set with streak 1 installs a fresh set with streak 2. -/
theorem C4_weekly_rollover_witness :
    (get_daily_challenges (some [c4User]) "2026-W41" "0003").1 =
      some (fresh_challenges "2026-W41"
        (if c4Challenges.challenge1.completed ∧ c4Challenges.challenge2.completed ∧
            c4Challenges.challenge3.completed
         then c4Challenges.streak + 1 else 0)) ∧
    daily_challenges_of (get_daily_challenges (some [c4User]) "2026-W41" "0003").2 "0003" =
      some (fresh_challenges "2026-W41"
        (if c4Challenges.challenge1.completed ∧ c4Challenges.challenge2.completed ∧
            c4Challenges.challenge3.completed
         then c4Challenges.streak + 1 else 0)) :=
  C4_weekly_rollover [c4User] "2026-W41" "0003" c4User c4Challenges
    (by decide) (by decide) (by decide) (by decide)

/-- Challenge set for C1: the current week with all three challenges
already completed (`completed_today = 3`). -/
def c1Challenges : Challenges :=
  { week := "2026-W41",
    challenge1 := { ctype := "practice", target := 5, current := 5, completed := true, xp := 5 },
    challenge2 := { ctype := "learning", target := 10, current := 10, completed := true, xp := 5 },
    challenge3 := { ctype := "mastery", target := 3, current := 3, completed := true, xp := 5 },
    completed_today := 3, streak := 0 }

def c1User : User :=
  { _id := "0001", username := "kid", name := none, className := ['5'], division := ['A'],
    user_type := "student", total_xp := 0, total_stars := 0, level := 1, last_active := "",
    achievements := init_user_achievements, weekly_xp := [],
    daily_challenges := some c1Challenges, security_question := none, security_answer := none }

/-- C1 (code bug): with all three current-week challenges already
completed, a further `update_challenge_progress` call — for an already
completed type, and even for an unrecognized type — returns 10 instead of
0 and adds 10 XP to `total_xp`, because the flat all-three-done bonus
check sits outside the completion branch. -/
theorem C1_bonus_reawarded_when_all_completed :
    (update_challenge_progress (some [c1User]) "2026-W41" "0001" "practice" 1).1 = 10 ∧
    total_xp_of (update_challenge_progress (some [c1User]) "2026-W41" "0001" "practice" 1).2
      "0001" = 10 ∧
    (update_challenge_progress (some [c1User]) "2026-W41" "0001" "bogus" 1).1 = 10 := by
  refine ⟨by decide, by decide, by decide⟩

/-! ## Weekly leaderboard (`database.py`, `get_weekly_leaderboard`)

Python's `lb.sort(key=lambda x: (x['weekly_xp'], x['xp']), reverse=True)`
is a stable sort, descending by the key pair.  It is modelled with
`List.insertionSort` over the relation `lb_le` below: a stable sort is
uniquely determined by the key and the input order, so the two produce
identical output. -/

/-- One leaderboard entry dict.  `rank` is absent until assigned; it is
modelled as 0 before assignment. -/
structure LBEntry where
  user_id : String
  name : String
  xp : Nat
  weekly_xp : Nat
  level : Nat
  badges : Nat
  division : PyStr
  rank : Nat
deriving DecidableEq

/-- The entry built for one student document:
`weekly_xp.get(week, 0)`, `name` defaulting to the username,
`badges = len(achievements.badges_earned)`. -/
def lb_entry (week : String) (s : User) : LBEntry :=
  { user_id := s._id,
    name := s.name.getD s.username,
    xp := s.total_xp,
    weekly_xp := lookupD 0 week s.weekly_xp,
    level := s.level,
    badges := s.achievements.badges_earned.length,
    division := s.division,
    rank := 0 }

/-- The filter of `get_weekly_leaderboard`: skip teacher documents, match
the class case-insensitively (both sides stripped) and, when a division
was selected (non-empty after strip/upper), match it exactly. -/
def lb_matches (selected_class selected_division : PyStr) (s : User) : Bool :=
  !(s.user_type == "teacher") &&
  (pyLower (pyStrip s.className) == pyLower (pyStrip selected_class)) &&
  (pyUpper (pyStrip selected_division) == [] ||
    pyUpper (pyStrip s.division) == pyUpper (pyStrip selected_division))

/-- Means "a may come before b" in the descending-by-`(weekly_xp, xp)` order. -/
def lb_le (a b : LBEntry) : Prop :=
  b.weekly_xp < a.weekly_xp ∨ (b.weekly_xp = a.weekly_xp ∧ b.xp ≤ a.xp)

instance lb_le_dec : DecidableRel lb_le := fun a b =>
  decidable_of_iff
    (b.weekly_xp < a.weekly_xp ∨ (b.weekly_xp = a.weekly_xp ∧ b.xp ≤ a.xp)) Iff.rfl

instance lb_le_total : IsTotal LBEntry lb_le :=
  ⟨by intro a b; unfold lb_le; omega⟩

instance lb_le_trans : IsTrans LBEntry lb_le :=
  ⟨by intro a b c; unfold lb_le; omega⟩

/-- Embeds `for i, e in enumerate(lb): e['rank'] = i + 1`. -/
def assign_ranks : Nat → List LBEntry → List LBEntry
  | _, [] => []
  | i, e :: rest => { e with rank := i + 1 } :: assign_ranks (i + 1) rest

/-- Body of `get_weekly_leaderboard`: filter, build entries, stable-sort
descending by `(weekly_xp, xp)`, assign 1-based ranks. -/
def get_weekly_leaderboard_core (store : UsersStore) (week : String)
    (selected_class selected_division : PyStr) : List LBEntry :=
  assign_ranks 0 (List.insertionSort lb_le
    ((store.filter (lb_matches selected_class selected_division)).map (lb_entry week)))

/-- Embeds `get_weekly_leaderboard` from `database.py` with the collection guard
(the current week key is passed explicitly). -/
def get_weekly_leaderboard (users : Option UsersStore) (week : String)
    (selected_class selected_division : PyStr) : List LBEntry :=
  match users with
  | none => []
  | some store => get_weekly_leaderboard_core store week selected_class selected_division

/-- Forget the assigned rank of an entry. -/
def lb_strip_rank (e : LBEntry) : LBEntry := { e with rank := 0 }

theorem assign_ranks_map_rank :
    ∀ (l : List LBEntry) (n : Nat),
      (assign_ranks n l).map (fun e => e.rank) = List.range' (n + 1) l.length := by
  intro l
  induction l with
  | nil => intro n; simp [assign_ranks]
  | cons e rest ih =>
    intro n
    rw [assign_ranks, List.map_cons, ih (n + 1), List.length_cons, List.range'_succ]

theorem assign_ranks_map_strip :
    ∀ (l : List LBEntry) (n : Nat),
      (assign_ranks n l).map lb_strip_rank = l.map lb_strip_rank := by
  intro l
  induction l with
  | nil => intro n; rfl
  | cons e rest ih =>
    intro n
    rw [assign_ranks, List.map_cons, List.map_cons, ih (n + 1)]
    rfl

theorem mem_assign_ranks :
    ∀ (l : List LBEntry) (n : Nat) (b : LBEntry), b ∈ assign_ranks n l →
      ∃ x ∈ l, ∃ j, b = { x with rank := j } := by
  intro l
  induction l with
  | nil => intro n b hb; simp [assign_ranks] at hb
  | cons e rest ih =>
    intro n b hb
    rw [assign_ranks] at hb
    rcases List.mem_cons.mp hb with hb | hb
    · exact ⟨e, List.mem_cons_self e rest, n + 1, hb⟩
    · obtain ⟨x, hx, j, hj⟩ := ih (n + 1) b hb
      exact ⟨x, List.mem_cons_of_mem e hx, j, hj⟩

theorem lb_le_rank_irrel {a b : LBEntry} (i j : Nat) (h : lb_le a b) :
    lb_le { a with rank := i } { b with rank := j } := h

theorem assign_ranks_pairwise :
    ∀ (l : List LBEntry) (n : Nat), l.Pairwise lb_le →
      (assign_ranks n l).Pairwise lb_le := by
  intro l
  induction l with
  | nil => intro n _; exact List.Pairwise.nil
  | cons e rest ih =>
    intro n h
    rcases List.pairwise_cons.mp h with ⟨he, hrest⟩
    rw [assign_ranks]
    refine List.pairwise_cons.mpr ⟨?_, ih (n + 1) hrest⟩
    intro b hb
    obtain ⟨x, hx, j, hj⟩ := mem_assign_ranks rest (n + 1) b hb
    rw [hj]
    exact lb_le_rank_irrel (n + 1) j (he x hx)

theorem lb_strip_rank_entry (week : String) (s : User) :
    lb_strip_rank (lb_entry week s) = lb_entry week s := rfl

theorem assign_ranks_length :
    ∀ (l : List LBEntry) (n : Nat), (assign_ranks n l).length = l.length := by
  intro l
  induction l with
  | nil => intro n; rfl
  | cons e rest ih =>
    intro n
    rw [assign_ranks, List.length_cons, List.length_cons, ih]

/-- Concrete students for the C7 example: A (weekly 50, total 500),
B (weekly 50, total 300), C (weekly 80, total 100), all in class 5. -/
def lbUserA : User :=
  { _id := "1001", username := "A", name := none, className := ['5'], division := ['A'],
    user_type := "student", total_xp := 500, total_stars := 0, level := 5, last_active := "",
    achievements := init_user_achievements, weekly_xp := [("2026-W41", 50)],
    daily_challenges := none, security_question := none, security_answer := none }

def lbUserB : User :=
  { _id := "1002", username := "B", name := none, className := ['5'], division := ['A'],
    user_type := "student", total_xp := 300, total_stars := 0, level := 4, last_active := "",
    achievements := init_user_achievements, weekly_xp := [("2026-W41", 50)],
    daily_challenges := none, security_question := none, security_answer := none }

def lbUserC : User :=
  { _id := "1003", username := "C", name := none, className := ['5'], division := ['A'],
    user_type := "student", total_xp := 100, total_stars := 0, level := 3, last_active := "",
    achievements := init_user_achievements, weekly_xp := [("2026-W41", 80)],
    daily_challenges := none, security_question := none, security_answer := none }

/-- C7: the weekly leaderboard consists of exactly the matching students'
entries (a permutation), sorted descending by `(weekly_xp, total_xp)`,
with 1-based ranks assigned in order after sorting; and on the concrete
A/B/C example the produced order is C, A, B with ranks 1, 2, 3. -/
theorem C7_leaderboard_ordering (store : UsersStore) (week : String)
    (selected_class selected_division : PyStr) :
    (get_weekly_leaderboard (some store) week selected_class selected_division).Pairwise lb_le ∧
    (get_weekly_leaderboard (some store) week selected_class selected_division).map
        (fun e => e.rank) =
      List.range' 1
        (get_weekly_leaderboard (some store) week selected_class selected_division).length ∧
    List.Perm
      ((get_weekly_leaderboard (some store) week selected_class selected_division).map
        lb_strip_rank)
      ((store.filter (lb_matches selected_class selected_division)).map (lb_entry week)) ∧
    get_weekly_leaderboard (some [lbUserA, lbUserB, lbUserC]) "2026-W41" ['5'] [] =
      [{ user_id := "1003", name := "C", xp := 100, weekly_xp := 80, level := 3,
         badges := 0, division := ['A'], rank := 1 },
       { user_id := "1001", name := "A", xp := 500, weekly_xp := 50, level := 5,
         badges := 0, division := ['A'], rank := 2 },
       { user_id := "1002", name := "B", xp := 300, weekly_xp := 50, level := 4,
         badges := 0, division := ['A'], rank := 3 }] := by
  refine ⟨?_, ?_, ?_, by decide⟩
  · exact assign_ranks_pairwise _ 0 (List.sorted_insertionSort lb_le _)
  · show (assign_ranks 0 _).map (fun e => e.rank) = _
    rw [assign_ranks_map_rank]
    congr 1
    show _ = (assign_ranks 0 _).length
    rw [assign_ranks_length]
  · show List.Perm
      ((assign_ranks 0 (List.insertionSort lb_le _)).map lb_strip_rank) _
    rw [assign_ranks_map_strip]
    have hperm := (List.perm_insertionSort lb_le
      ((store.filter (lb_matches selected_class selected_division)).map (lb_entry week))).map
      lb_strip_rank
    refine hperm.trans ?_
    rw [List.map_map]
    have hcomp : lb_strip_rank ∘ lb_entry week = lb_entry week := funext (fun s => rfl)
    rw [hcomp]

/-! ## User CRUD and security questions (`database.py`) -/

/-- Embeds `get_user_by_id` from `database.py`. -/
def get_user_by_id (users : Option UsersStore) (uid : String) : Option User :=
  match users with
  | none => none
  | some store => find_user store uid

/-- Embeds `update_user` from `database.py`: applies the `$set` payload (given as
a document transformer) plus a fresh `last_active` timestamp (passed
explicitly), returning `False` when the store is unavailable. -/
def update_user (users : Option UsersStore) (uid : String)
    (update_data : User → User) (now : String) : Bool × Option UsersStore :=
  match users with
  | none => (false, none)
  | some store =>
    (true, some (update_user_doc store uid (fun u =>
      { update_data u with last_active := now })))

/-- Modelled from the spec: the external credential verifier (werkzeug
password hashing, excluded from the core as an opaque capability).  The
hash of a plaintext is an opaque tagged value determined by the plaintext;
`pbkdf2:`-prefixed strings are recognizable as hashes (`is_hashed`). -/
def hash_password (plain_text : PyStr) : PyStr := "pbkdf2:".toList ++ plain_text

/-- Python `str.startswith` for the hash-format check. -/
def pyStartswith (pre s : PyStr) : Bool :=
  match pre, s with
  | [], _ => true
  | _ :: _, [] => false
  | c :: p, d :: t => c == d && pyStartswith p t

/-- Embeds `check_pw` from `database.py`: verify against a hashed credential, or
fall back to plain-text comparison for legacy values (the
`except`-branch). -/
def check_pw (stored provided : PyStr) : Bool :=
  if pyStartswith "pbkdf2:".toList stored then stored == hash_password provided
  else stored == provided

/-- Embeds `set_security_question` from `database.py`: stores the question and
the hash of the stripped, lower-cased answer. -/
def set_security_question (users : Option UsersStore) (uid question : String)
    (answer_plain : PyStr) : Bool × Option UsersStore :=
  match users with
  | none => (false, none)
  | some store =>
    (true, some (update_user_doc store uid (fun u =>
      { u with security_question := some question,
               security_answer := some (hash_password (pyLower (pyStrip answer_plain))) })))

/-- Embeds `verify_security_answer` from `database.py`: `True` only when the
user exists, the supplied question matches the stored one, an answer is
stored, and the stripped lower-cased supplied answer checks against it. -/
def verify_security_answer (users : Option UsersStore) (uid question : String)
    (answer_plain : PyStr) : Bool :=
  match users with
  | none => false
  | some store =>
    match find_user store uid with
    | none => false
    | some user =>
      if user.security_question ≠ some question then false
      else
        match user.security_answer with
        | none => false
        | some stored_answer =>
          if stored_answer = [] then false
          else check_pw stored_answer (pyLower (pyStrip answer_plain))

theorem pyStartswith_prepend (p s : PyStr) : pyStartswith p (p ++ s) = true := by
  induction p with
  | nil => rfl
  | cons c cs ih => simp [pyStartswith, ih]

theorem check_pw_hash (a b : PyStr) : check_pw (hash_password a) b = (a == b) := by
  unfold check_pw hash_password
  rw [if_pos (pyStartswith_prepend _ _)]
  by_cases h : a = b
  · subst h; simp
  · have hne : "pbkdf2:".toList ++ a ≠ "pbkdf2:".toList ++ b :=
      fun he => h (List.append_cancel_left he)
    simp [h, hne]

theorem hash_password_ne_nil (a : PyStr) : hash_password a ≠ [] := by
  simp [hash_password, String.toList]

/-- C9: when the persistence store is unavailable (collection handle
`None`), the store-accessing operations return their empty/default
results instead of raising: empty leaderboard, no user, `False` update,
no new badges, empty transcript, 0 challenge XP. -/
theorem C9_store_unavailable :
    (∀ (week : String) (selected_class selected_division : PyStr),
      get_weekly_leaderboard none week selected_class selected_division = []) ∧
    (∀ uid, get_user_by_id none uid = none) ∧
    (∀ uid f now, (update_user none uid f now).1 = false) ∧
    (∀ uid, (check_and_award_badges none uid).1 = []) ∧
    (∀ uid mode, get_conversation none uid mode = []) ∧
    (∀ week uid t inc, (update_challenge_progress none week uid t inc).1 = 0) :=
  ⟨fun _ _ _ => rfl, fun _ => rfl, fun _ _ _ => rfl, fun _ => rfl,
   fun _ _ => rfl, fun _ _ _ _ => rfl⟩

/-- C10: after `set_security_question`, verification accepts any supplied
answer equal to the original up to leading/trailing whitespace and letter
case; it rejects any differing question; and with no stored answer it
rejects everything. -/
theorem C10_security_answer_verification (store : UsersStore) (uid question : String)
    (orig supplied : PyStr) (u : User) (hu : find_user store uid = some u) :
    (pyLower (pyStrip supplied) = pyLower (pyStrip orig) →
      verify_security_answer (set_security_question (some store) uid question orig).2
        uid question supplied = true) ∧
    (∀ q', q' ≠ question →
      verify_security_answer (set_security_question (some store) uid question orig).2
        uid q' supplied = false) ∧
    (u.security_answer = none →
      ∀ q ans, verify_security_answer (some store) uid q ans = false) := by
  have hf2 : find_user (update_user_doc store uid (fun v =>
      { v with security_question := some question,
               security_answer := some (hash_password (pyLower (pyStrip orig))) })) uid =
      some { u with security_question := some question,
                    security_answer := some (hash_password (pyLower (pyStrip orig))) } := by
    rw [find_user_update store uid (fun v =>
      { v with security_question := some question,
               security_answer := some (hash_password (pyLower (pyStrip orig))) })
      (fun v => rfl), hu]
    rfl
  refine ⟨?_, ?_, ?_⟩
  · intro h
    simp only [set_security_question, verify_security_answer, hf2]
    rw [if_neg (by simp)]
    rw [if_neg (hash_password_ne_nil _)]
    rw [check_pw_hash]
    simp [h]
  · intro q' hq
    simp only [set_security_question, verify_security_answer, hf2]
    rw [if_pos (by simp; exact fun he => hq he.symm)]
  · intro hans q ans
    simp only [verify_security_answer, hu]
    by_cases hq : u.security_question = some q
    · rw [if_neg (by simp [hq])]
      rw [hans]
    · rw [if_pos (by simp [hq])]

/-- Concrete user for the C10 witness (no security answer stored yet). -/
def c10User : User :=
  { _id := "0004", username := "pat", name := none, className := ['5'],
    division := ['A'], user_type := "student", total_xp := 0, total_stars := 0,
    level := 1, last_active := "", achievements := init_user_achievements,
    weekly_xp := [], daily_challenges := none,
    security_question := none, security_answer := none }

/-- Witness for C10: the answer ` Rex` is accepted as `rex `, a different
question is rejected, and with no stored answer everything is rejected. -/
theorem C10_security_answer_verification_witness :
    verify_security_answer
      (set_security_question (some [c10User]) "0004" "Q1" [' ', 'R', 'e', 'x']).2
      "0004" "Q1" ['r', 'e', 'x', ' '] = true ∧
    verify_security_answer
      (set_security_question (some [c10User]) "0004" "Q1" [' ', 'R', 'e', 'x']).2
      "0004" "Q2" ['r', 'e', 'x', ' '] = false ∧
    verify_security_answer (some [c10User]) "0004" "Q1" ['r', 'e', 'x'] = false := by
  have h := C10_security_answer_verification [c10User] "0004" "Q1"
    [' ', 'R', 'e', 'x'] ['r', 'e', 'x', ' '] c10User (by decide)
  exact ⟨h.1 (by decide), h.2.1 "Q2" (by decide), h.2.2 (by decide) "Q1" ['r', 'e', 'x']⟩

end SS14
